import Mathlib

/-!
# Verification of the unifeed scheduled-ingestion pipeline

A shallow embedding, in Lean 4, of the core of the `unifeed` repository:
the RSS item store (`internal/service/ai.go`: `StoreFeedItems`,
`GetStoredFeedItems`, `sanitizeID`, `retryWithBackoff`, `UpdateFeed`) and the
scheduler (`internal/service/scheduler.go`: `NewSchedulerService`, `StartJob`,
`updateFeed`, `runUpdateLoop`).

Modelling conventions:
* Go strings are byte lists (`GoStr := List Nat`); `goStr` converts an ASCII
  Lean literal to its byte list, matching Go's byte-based `len` and slicing.
* The durable blob backend (`dao.S3Client`, an external collaborator with the
  contract `put(key, bytes, contentType)`, `get(key)`, `list(prefix)`) is
  modelled as an in-memory association list with per-key overwrite, whose
  operations succeed; network failures of external calls (feed fetch/parse,
  summarization, per-attempt operation results) are injected through explicit
  result oracles, so every failure path of the embedded code stays reachable.
* Concurrent fan-out (`sync.WaitGroup` + buffered channels) is determinised:
  the per-item goroutines are run in list order, all work completes before the
  first collected error is reported, exactly as the join-then-report code does.
* A failing Go type assertion (`x.(T)` without the comma-ok form) is a runtime
  panic; results are therefore drawn from `Outcome`, which distinguishes
  normal returns, error returns, and panics.
* `crypto/sha256` is embedded as the full FIPS 180-4 SHA-256 over byte lists,
  with 32-bit words represented as `Nat` reduced modulo `2^32`.
-/

namespace Unifeed

/-- Go byte string: a list of byte values. -/
abbrev GoStr := List Nat

/-- Bytes of an ASCII Lean string literal (all source literals are ASCII,
where Go's byte-based view and the code-point view coincide). -/
def goStr (s : String) : GoStr := s.toList.map Char.toNat

/-- Fuel-driven digit extraction for `natToDec` (structural recursion so that
proofs can evaluate it definitionally). -/
def natToDecAux : Nat → Nat → GoStr
  | 0, _ => []
  | fuel + 1, n => if n < 10 then [48 + n] else natToDecAux fuel (n / 10) ++ [48 + n % 10]

/-- Decimal rendering of a natural number, as `fmt.Sprintf("%d", n)` renders
a non-negative integer. -/
def natToDec (n : Nat) : GoStr := natToDecAux (n + 1) n

/-! ## SHA-256 (crypto/sha256), FIPS 180-4, over byte lists -/

/-- 2^32, the modulus for 32-bit words. -/
def M32 : Nat := 4294967296

/-- 32-bit addition. -/
def add32 (a b : Nat) : Nat := (a + b) % M32

/-- 32-bit right rotation (inputs below `2^32`). -/
def rotr32 (x n : Nat) : Nat := Nat.lor (x >>> n) ((x <<< (32 - n)) % M32)

/-- 32-bit bitwise complement. -/
def not32 (x : Nat) : Nat := Nat.xor x (M32 - 1)

/-- SHA-256 `Ch(e,f,g)`. -/
def chF (e f g : Nat) : Nat := Nat.xor (Nat.land e f) (Nat.land (not32 e) g)

/-- SHA-256 `Maj(a,b,c)`. -/
def majF (a b c : Nat) : Nat :=
  Nat.xor (Nat.land a b) (Nat.xor (Nat.land a c) (Nat.land b c))

/-- SHA-256 `Σ0`. -/
def bigS0 (x : Nat) : Nat := Nat.xor (rotr32 x 2) (Nat.xor (rotr32 x 13) (rotr32 x 22))

/-- SHA-256 `Σ1`. -/
def bigS1 (x : Nat) : Nat := Nat.xor (rotr32 x 6) (Nat.xor (rotr32 x 11) (rotr32 x 25))

/-- SHA-256 `σ0`. -/
def smlS0 (x : Nat) : Nat := Nat.xor (rotr32 x 7) (Nat.xor (rotr32 x 18) (x >>> 3))

/-- SHA-256 `σ1`. -/
def smlS1 (x : Nat) : Nat := Nat.xor (rotr32 x 17) (Nat.xor (rotr32 x 19) (x >>> 10))

/-- The 64 SHA-256 round constants. -/
def sha256K : List Nat :=
  [1116352408, 1899447441, 3049323471, 3921009573, 961987163, 1508970993,
   2453635748, 2870763221, 3624381080, 310598401, 607225278, 1426881987,
   1925078388, 2162078206, 2614888103, 3248222580, 3835390401, 4022224774,
   264347078, 604807628, 770255983, 1249150122, 1555081692, 1996064986,
   2554220882, 2821834349, 2952996808, 3210313671, 3336571891, 3584528711,
   113926993, 338241895, 666307205, 773529912, 1294757372, 1396182291,
   1695183700, 1986661051, 2177026350, 2456956037, 2730485921, 2820302411,
   3259730800, 3345764771, 3516065817, 3600352804, 4094571909, 275423344,
   430227734, 506948616, 659060556, 883997877, 958139571, 1322822218,
   1537002063, 1747873779, 1955562222, 2024104815, 2227730452, 2361852424,
   2428436474, 2756734187, 3204031479, 3329325298]

/-- The eight SHA-256 working registers. -/
structure Regs where
  a : Nat
  b : Nat
  c : Nat
  d : Nat
  e : Nat
  f : Nat
  g : Nat
  h : Nat

/-- One SHA-256 compression round with round constant `k` and schedule word `w`. -/
def roundStep (r : Regs) (kw : Nat × Nat) : Regs :=
  let t1 := add32 r.h (add32 (bigS1 r.e) (add32 (chF r.e r.f r.g) (add32 kw.1 kw.2)))
  let t2 := add32 (bigS0 r.a) (majF r.a r.b r.c)
  ⟨add32 t1 t2, r.a, r.b, r.c, add32 r.d t1, r.e, r.f, r.g⟩

/-- Big-endian 32-bit word from four bytes. -/
def word4 : List Nat → Nat
  | b0 :: b1 :: b2 :: b3 :: _ => ((b0 <<< 24) + (b1 <<< 16) + (b2 <<< 8) + b3) % M32
  | _ => 0

/-- The sixteen initial schedule words of a 64-byte block. -/
def words16 (block : List Nat) : List Nat :=
  (List.range 16).map (fun i => word4 (block.drop (4 * i)))

/-- Extend the message schedule by `k` further words. -/
def extendW : Nat → List Nat → List Nat
  | 0, w => w
  | k + 1, w =>
    let i := w.length
    let nw := add32 (w.getD (i - 16) 0)
      (add32 (smlS0 (w.getD (i - 15) 0))
        (add32 (w.getD (i - 7) 0) (smlS1 (w.getD (i - 2) 0))))
    extendW k (w ++ [nw])

/-- Compress one 64-byte block into the running hash state. -/
def compress (st : Regs) (block : List Nat) : Regs :=
  let w := extendW 48 (words16 block)
  let r := (sha256K.zip w).foldl roundStep st
  ⟨add32 st.a r.a, add32 st.b r.b, add32 st.c r.c, add32 st.d r.d,
   add32 st.e r.e, add32 st.f r.f, add32 st.g r.g, add32 st.h r.h⟩

/-- The SHA-256 initial hash value. -/
def sha256H0 : Regs :=
  ⟨1779033703, 3144134277, 1013904242, 2773480762,
   1359893119, 2600822924, 528734635, 1541459225⟩

/-- SHA-256 message padding: `0x80`, zeros, then the 64-bit big-endian bit
length. -/
def padMsg (m : GoStr) : GoStr :=
  let L := m.length
  let k := (64 - ((L + 9) % 64)) % 64
  let bits := (8 * L) % 18446744073709551616
  m ++ [128] ++ List.replicate k 0 ++
    [(bits >>> 56) % 256, (bits >>> 48) % 256, (bits >>> 40) % 256,
     (bits >>> 32) % 256, (bits >>> 24) % 256, (bits >>> 16) % 256,
     (bits >>> 8) % 256, bits % 256]

/-- Fuel-driven splitting into 64-byte blocks (the fuel is an upper bound on
the list length, so the recursion is structural). -/
def blocks64Aux : Nat → List Nat → List (List Nat)
  | 0, _ => []
  | fuel + 1, l => if l = [] then [] else l.take 64 :: blocks64Aux fuel (l.drop 64)

/-- Split a byte list into 64-byte blocks. -/
def blocks64 (l : List Nat) : List (List Nat) := blocks64Aux l.length l

/-- Big-endian bytes of a 32-bit word. -/
def wordBytes (x : Nat) : List Nat :=
  [(x >>> 24) % 256, (x >>> 16) % 256, (x >>> 8) % 256, x % 256]

/-- The final SHA-256 hash state of a byte string. -/
def sha256Regs (m : GoStr) : Regs := (blocks64 (padMsg m)).foldl compress sha256H0

/-- The 32-byte SHA-256 digest of a byte string. -/
def sha256bytes (m : GoStr) : List Nat :=
  wordBytes (sha256Regs m).a ++ wordBytes (sha256Regs m).b ++
    wordBytes (sha256Regs m).c ++ wordBytes (sha256Regs m).d ++
    wordBytes (sha256Regs m).e ++ wordBytes (sha256Regs m).f ++
    wordBytes (sha256Regs m).g ++ wordBytes (sha256Regs m).h

/-- A lowercase hexadecimal digit byte. -/
def hexDigit (n : Nat) : Nat := if n < 10 then 48 + n else 87 + n

/-- Lowercase hex rendering of a byte list, as `fmt.Sprintf("%x", b)`. -/
def hexOfBytes : List Nat → GoStr
  | [] => []
  | b :: rest => hexDigit (b / 16) :: hexDigit (b % 16) :: hexOfBytes rest

/-- `fmt.Sprintf("%x", sha256.Sum(id))`: the 64-character hex digest. -/
def sha256hex (m : GoStr) : GoStr := hexOfBytes (sha256bytes m)

/-! ## sanitizeID (ai.go lines 969–995) -/

/-- One step of the `strings.NewReplacer` in `sanitizeID`: the path-unsafe
bytes `/ \ : * ? " < > |` and space each become `_` (byte 95). -/
def replaceByte (b : Nat) : Nat :=
  if b = 47 ∨ b = 92 ∨ b = 58 ∨ b = 42 ∨ b = 63 ∨ b = 34 ∨
     b = 60 ∨ b = 62 ∨ b = 124 ∨ b = 32 then 95 else b

/-- `replacer.Replace(id)`: every pattern of the replacer is a single byte, so
the replacement is a bytewise map. -/
def replacerReplace (s : GoStr) : GoStr := s.map replaceByte

/-- `RssService.sanitizeID`: replace unsafe bytes (`safeID :=
replacer.Replace(id)`); if the result exceeds 200 bytes, truncate to 192
bytes and append `_` and the first 8 hex characters of the SHA-256 digest of
the original identifier. -/
def sanitizeID (id : GoStr) : GoStr :=
  if 200 < (replacerReplace id).length then
    (replacerReplace id).take 192 ++ [95] ++ (sha256hex id).take 8
  else replacerReplace id

/-! ## Errors and outcomes

Go errors built with `fmt.Errorf` are modelled structurally: `msg` is a plain
formatted message, `wrap txt inner` is `fmt.Errorf("<txt>%w", inner)` (the
rendered text is `txt` followed by the rendered inner error), and
`ctxCanceled` is `ctx.Err()` after cancellation. -/

inductive GoErr where
  | msg (s : GoStr)
  | wrap (txt : GoStr) (inner : GoErr)
  | ctxCanceled
deriving DecidableEq

/-- Result of running a piece of Go code: a normal return, an error return,
or a runtime panic (e.g. a failing single-result type assertion). -/
inductive Outcome (α : Type) where
  | ok (a : α)
  | err (e : GoErr)
  | panicked
deriving DecidableEq

/-! ## JSON values and the gofeed item -/

/-- JSON values as stored in the blob backend.  Only strings and objects
arise from the marshalled `gofeed.Item` fields this development reads. -/
inductive JVal where
  | str (s : GoStr)
  | obj (fields : List (GoStr × JVal))

/-- A Go `map[string]interface{}` produced by `json.Unmarshal`, as an
association list of JSON values. -/
abbrev JMap := List (GoStr × JVal)

/-- The fields of `gofeed.Item` that the embedded code reads: `Title`,
`Description`, `Content`, `Link`, `GUID` (strings, zero value `""`) and
`Custom` (a `map[string]string`; `nil` and the empty map coincide in this
model, which is faithful because `json:"custom,omitempty"` omits both and the
code only ever inserts into it). Fields the code never reads are elided. -/
structure GoItem where
  title : GoStr
  description : GoStr
  content : GoStr
  link : GoStr
  guid : GoStr
  custom : List (GoStr × GoStr)
deriving DecidableEq

/-- Association-list lookup (Go map indexing / get-by-key). -/
def alookup {α : Type} : List (GoStr × α) → GoStr → Option α
  | [], _ => none
  | (k', v) :: rest, k => if k' = k then some v else alookup rest k

/-- Association-list insert-or-replace (Go map assignment / blob overwrite). -/
def aupsert {α : Type} : List (GoStr × α) → GoStr → α → List (GoStr × α)
  | [], k, v => [(k, v)]
  | (k', v') :: rest, k, v =>
    if k' = k then (k, v) :: rest else (k', v') :: aupsert rest k v

/-- The item identifier used by `StoreFeedItems` (ai.go lines 893–903):
the GUID, falling back to the link, then to the title. -/
def itemID (it : GoItem) : GoStr :=
  if it.guid = [] then (if it.link = [] then it.title else it.link) else it.guid

/-- The storage key `fmt.Sprintf("feeds/%s/items/%s.json", feedName, safeID)`
built in `StoreFeedItems` (ai.go line 909). -/
def objectKey (feedName : GoStr) (it : GoItem) : GoStr :=
  goStr "feeds/" ++ feedName ++ goStr "/items/" ++ sanitizeID (itemID it) ++ goStr ".json"

/-- An `omitempty` string field of the marshalled item. -/
def optField (k : GoStr) (v : GoStr) : List (GoStr × JVal) :=
  if v = [] then [] else [(k, JVal.str v)]

/-- `json.Marshal` of a `*gofeed.Item`: an object with the `omitempty`
string fields and, when `Custom` is non-empty, a `"custom"` object. -/
def marshalItem (it : GoItem) : JVal :=
  JVal.obj (optField (goStr "title") it.title ++
    optField (goStr "description") it.description ++
    optField (goStr "content") it.content ++
    optField (goStr "link") it.link ++
    optField (goStr "guid") it.guid ++
    (if it.custom = [] then []
     else [(goStr "custom", JVal.obj (it.custom.map (fun kv => (kv.1, JVal.str kv.2))))]))

/-! ## The RSS service state -/

/-- A value held by the `sync.Map` cache under an `"items:<name>"` key,
remembering its Go dynamic type: `feedItems` is a `[]*gofeed.Item` (written by
`StoreFeedItems`, line 957), `itemMaps` is a `[]map[string]interface{}`
(written by `GetStoredFeedItems`, line 856). -/
inductive CacheVal where
  | feedItems (items : List GoItem)
  | itemMaps (items : List JMap)

/-- The mutable state of an `RssService` together with its blob backend.
`s3conf` is whether `s3Client` is non-nil; the backend itself (an external
collaborator with contract `put`/`get`/`list`) is an in-memory key/value
map whose operations succeed, with per-key overwrite. -/
structure RssState where
  s3conf : Bool
  cache : List (GoStr × CacheVal)
  s3 : List (GoStr × JVal)

/-- The cache key `fmt.Sprintf("items:%s", feedName)`. -/
def itemsCacheKey (feedName : GoStr) : GoStr := goStr "items:" ++ feedName

/-- The listing key space `fmt.Sprintf("feeds/%s/items/", feedName)`. -/
def feedItemsPre (feedName : GoStr) : GoStr :=
  goStr "feeds/" ++ feedName ++ goStr "/items/"

/-- Byte-string prefix test (`ListObjects` key filtering). -/
def isPre : GoStr → GoStr → Bool
  | [], _ => true
  | _ :: _, [] => false
  | a :: as, b :: bs => a == b && isPre as bs

/-- `ListObjects(ctx, prefix)` on the in-memory backend. -/
def listObjects (s3 : List (GoStr × JVal)) (p : GoStr) : List (GoStr × JVal) :=
  s3.filter (fun kv => isPre p kv.1)

/-- `RssService.StoreFeedItems` (ai.go lines 863–967): nil-client check, then
one write per item under `objectKey`, then the unconditional cache refresh of
`"items:<name>"` with the input `[]*gofeed.Item` slice.  The concurrent
fan-out is determinised in list order; on the in-memory backend every
marshal and put succeeds, so the join finds no error. -/
def StoreFeedItemsModel (st : RssState) (feedName : GoStr) (items : List GoItem) :
    Outcome Unit × RssState :=
  if st.s3conf = false then
    (.err (.msg (goStr "S3 client not configured")), st)
  else
    let s3' := items.foldl (fun m it => aupsert m (objectKey feedName it) (marshalItem it)) st.s3
    (.ok (),
      { st with
        s3 := s3'
        cache := aupsert st.cache (itemsCacheKey feedName) (CacheVal.feedItems items) })

/-- `json.Unmarshal(data, &item)` for each fetched object, in fan-out order:
an object unmarshals into its field map, anything else is an unmarshal error;
the first error (all work having completed) is reported. -/
def unmarshalAll : List JVal → Except GoErr (List JMap)
  | [] => .ok []
  | JVal.obj f :: rest => (unmarshalAll rest).map (fun ms => f :: ms)
  | JVal.str _ :: _ => .error (.msg (goStr "json: cannot unmarshal string into map"))

/-- The per-item body of the collection loop in `GetStoredFeedItems` (ai.go
lines 840–846): `item["custom"].(map[string]interface{})["summary"]` panics
(`none`) unless `item["custom"]` is an object; when the object has a
`"summary"` entry it is copied to `item["summary"]`. -/
def processItem (m : JMap) : Option JMap :=
  match alookup m (goStr "custom") with
  | some (JVal.obj c) =>
    match alookup c (goStr "summary") with
    | some v => some (aupsert m (goStr "summary") v)
    | none => some m
  | some (JVal.str _) => none
  | none => none

/-- The collection loop over all fetched items; `none` is a panic at the
first offending item. -/
def processAll : List JMap → Option (List JMap)
  | [] => some []
  | m :: rest =>
    match processItem m with
    | none => none
    | some m' => (processAll rest).map (fun ms => m' :: ms)

/-- The object bodies fetched by the fan-out of `GetStoredFeedItems`: one
`GetObject` per key listed under `feeds/<name>/items/` (each get succeeds on
the in-memory backend). -/
def fetchedRaws (st : RssState) (feedName : GoStr) : List JVal :=
  ((listObjects st.s3 (feedItemsPre feedName)).map Prod.fst).filterMap
    (fun k => alookup st.s3 k)

/-- `RssService.GetStoredFeedItems` (ai.go lines 737–860): cache lookup with
the single-result type assertion `cached.([]map[string]interface{})` (a panic
on any other dynamic type), else list-get-unmarshal over the
`feeds/<name>/items/` key space, the join-then-first-error check, the
`"custom"` collection loop, and the cache refresh with the collected maps. -/
def GetStoredFeedItemsModel (st : RssState) (feedName : GoStr) :
    Outcome (List JMap) × RssState :=
  match alookup st.cache (itemsCacheKey feedName) with
  | some (CacheVal.itemMaps ms) => (.ok ms, st)
  | some (CacheVal.feedItems _) => (.panicked, st)
  | none =>
    match unmarshalAll (fetchedRaws st feedName) with
    | .error e => (.err (.wrap (goStr "failed to read some feed items: ") e), st)
    | .ok maps =>
      match processAll maps with
      | none => (.panicked, st)
      | some items =>
        (.ok items,
          { st with cache := aupsert st.cache (itemsCacheKey feedName) (CacheVal.itemMaps items) })

/-! ## The update cycle (ai.go lines 998–1080) -/

/-- The text handed to `Summarize` for an item: `item.Content`, falling back
to `item.Description` when empty (ai.go lines 1038–1041). -/
def summaryInput (it : GoItem) : GoStr :=
  if it.content = [] then it.description else it.content

/-- One step of the annotation loop: a failed summarize call leaves the item
untouched (`continue`), a successful one stores the summary under
`Custom["summary"]` (allocating the map when nil). -/
def annotateOne (res : Except GoErr GoStr) (it : GoItem) : GoItem :=
  match res with
  | .error _ => it
  | .ok summary => { it with custom := aupsert it.custom (goStr "summary") summary }

/-- The annotation loop of `UpdateFeed`: the summarize call for item `i` is
the injected outcome `sumRes i (summaryInput item)`. -/
def annotateItems (sumRes : Nat → GoStr → Except GoErr GoStr) (items : List GoItem) :
    List GoItem :=
  items.enum.map (fun p => annotateOne (sumRes p.1 (summaryInput p.2)) p.2)

/-- `RssService.UpdateFeed`: empty-URL check, fetch+parse (injected outcome
`parseRes`, since `ParseFeed` is a network call), best-effort per-item
annotation, then `StoreFeedItems`. -/
def UpdateFeedModel (st : RssState) (feedName feedUrl : GoStr)
    (parseRes : Except GoErr (List GoItem))
    (sumRes : Nat → GoStr → Except GoErr GoStr) : Outcome Unit × RssState :=
  if feedUrl = [] then (.err (.msg (goStr "feed URL is required")), st)
  else
    match parseRes with
    | .error e => (.err (.wrap (goStr "failed to parse feed: ") e), st)
    | .ok items =>
      match StoreFeedItemsModel st feedName (annotateItems sumRes items) with
      | (Outcome.ok _, st') => (.ok (), st')
      | (Outcome.err e, st') => (.err (.wrap (goStr "failed to store feed items: ") e), st')
      | (Outcome.panicked, st') => (.panicked, st')

/-! ## retryWithBackoff (ai.go lines 657–688) -/

/-- The final error text of `retryWithBackoff`:
`fmt.Errorf("operation %s failed after %d retries: %w", operation, MaxRetries, lastErr)`. -/
def retryFailMsg (operation : GoStr) (maxR : Nat) : GoStr :=
  goStr "operation " ++ operation ++ goStr " failed after " ++ natToDec maxR ++
    goStr " retries: "

/-- The result of a retried operation and the number of times `fn` was
invoked. -/
structure RetryResult where
  result : Except GoErr Unit
  attempts : Nat

/-- The loop of `retryWithBackoff`, with the per-attempt outcome of `fn`
injected as `fnRes i` (`none` = success) and the cancellation signal during
the wait before attempt `i > 0` injected as `canc i`.  `i` is the next
attempt index; the fuel starts at `MaxRetries + 1`, matching
`for i := 0; i <= s.config.MaxRetries; i++`. -/
def retryAux (operation : GoStr) (maxR : Nat) (fnRes : Nat → Option GoErr)
    (canc : Nat → Bool) : Nat → Nat → Option GoErr → RetryResult
  | i, 0, lastErr =>
    ⟨.error (.wrap (retryFailMsg operation maxR) (lastErr.getD (.msg []))), i⟩
  | i, fuel + 1, _lastErr =>
    if 0 < i ∧ canc i = true then ⟨.error .ctxCanceled, i⟩
    else
      match fnRes i with
      | some e => retryAux operation maxR fnRes canc (i + 1) fuel (some e)
      | none => ⟨.ok (), i + 1⟩

/-- `RssService.retryWithBackoff`. -/
def retryWithBackoff (operation : GoStr) (maxR : Nat) (fnRes : Nat → Option GoErr)
    (canc : Nat → Bool) : RetryResult :=
  retryAux operation maxR fnRes canc 0 (maxR + 1) none

/-! ## The scheduler (scheduler.go) -/

/-- `conf.Feed`, restricted to the fields the scheduler reads. -/
structure GoFeed where
  name : GoStr
  rssFeed : GoStr
deriving DecidableEq

/-- A `Job`: the stop channel is identified by an allocation number, the
`time.Time` zero value is `0`, `jobErr` is the `Error` field. -/
structure SchedJob where
  feedName : GoStr
  feedUrl : GoStr
  stopChanId : Nat
  lastRun : Nat
  jobErr : Option GoErr
deriving DecidableEq

/-- The scheduler's registry state: the `jobs` map and a counter allocating
fresh stop channels. -/
structure SchedState where
  jobs : List (GoStr × SchedJob)
  nextChanId : Nat
deriving DecidableEq

/-- `SchedulerConfig`; `time.Duration` values are nanosecond counts and
`MaxRetries` is a Go `int`, so all fields are integers. -/
structure SchedulerConfig where
  updateInterval : Int
  maxRetries : Int
  retryDelay : Int
deriving DecidableEq

/-- The configuration normalisation performed by `NewSchedulerService`
(scheduler.go lines 33–43): each zero field is replaced by its default. -/
def newSchedulerConfig (cfg : SchedulerConfig) : SchedulerConfig :=
  let c1 := if cfg.updateInterval = 0 then { cfg with updateInterval := 3600000000000 } else cfg
  let c2 := if c1.maxRetries = 0 then { c1 with maxRetries := 3 } else c1
  if c2.retryDelay = 0 then { c2 with retryDelay := 5000000000 } else c2

/-- `SchedulerService.StartJob` (scheduler.go lines 52–72), the registry
transition under the write lock: duplicate names fail, otherwise a `Job` with
a fresh stop channel is registered (the launched update loop runs
concurrently and is not part of this transition). -/
def StartJobModel (st : SchedState) (feed : GoFeed) : Option GoErr × SchedState :=
  match alookup st.jobs feed.name with
  | some _ => (some (.msg (goStr "job already exists for feed: " ++ feed.name)), st)
  | none =>
    let job : SchedJob := ⟨feed.name, feed.rssFeed, st.nextChanId, 0, none⟩
    (none, ⟨aupsert st.jobs feed.name job, st.nextChanId + 1⟩)

/-- The final error text of the scheduler's `updateFeed`:
`fmt.Errorf("failed after %d retries: %w", s.config.MaxRetries, lastErr)`. -/
def schedFailMsg (maxR : Nat) : GoStr :=
  goStr "failed after " ++ natToDec maxR ++ goStr " retries: "

/-- The loop of `SchedulerService.updateFeed` (scheduler.go lines 128–152),
`for i := 0; i < s.config.MaxRetries; i++`: per-attempt outcomes of the
`ParseFeed` and `StoreFeedItems` service calls are injected (both involve the
network on this path).  Returns the result, the job after the cycle, and the
number of attempts made. -/
def schedUpdateAux (maxR : Nat) (parseRes : Nat → Except GoErr (List GoItem))
    (storeRes : Nat → Except GoErr Unit) (now : Nat) :
    Nat → Nat → Option GoErr → SchedJob → Except GoErr Unit × SchedJob × Nat
  | i, 0, lastErr, job =>
    (.error (.wrap (schedFailMsg maxR) (lastErr.getD (.msg []))), job, i)
  | i, fuel + 1, _lastErr, job =>
    match parseRes i with
    | .error e =>
      schedUpdateAux maxR parseRes storeRes now (i + 1) fuel
        (some (.wrap (goStr "failed to parse feed: ") e)) job
    | .ok _ =>
      match storeRes i with
      | .error e =>
        schedUpdateAux maxR parseRes storeRes now (i + 1) fuel
          (some (.wrap (goStr "failed to store feed items: ") e)) job
      | .ok _ => (.ok (), { job with lastRun := now, jobErr := none }, i + 1)

/-- `SchedulerService.updateFeed`: the loop entered with attempt index 0 and
fuel `MaxRetries`. -/
def schedUpdateFeed (maxR : Nat) (parseRes : Nat → Except GoErr (List GoItem))
    (storeRes : Nat → Except GoErr Unit) (now : Nat) (job : SchedJob) :
    Except GoErr Unit × SchedJob × Nat :=
  schedUpdateAux maxR parseRes storeRes now 0 maxR none job

/-- One cycle as driven by `runUpdateLoop` (scheduler.go lines 108–123):
run `updateFeed` and record a failure on the job's `Error` field. -/
def runCycleOnce (maxR : Nat) (parseRes : Nat → Except GoErr (List GoItem))
    (storeRes : Nat → Except GoErr Unit) (now : Nat) (job : SchedJob) :
    SchedJob × Nat :=
  match schedUpdateFeed maxR parseRes storeRes now job with
  | (.error e, job', n) => ({ job' with jobErr := some e }, n)
  | (.ok _, job', n) => (job', n)

/-! ## Analysis-side definitions (inputs and observations, not source code) -/

/-- The first 32 bits of a string's SHA-256 digest, as a number: the first
four digest bytes — hence the first 8 hex characters of the rendered digest —
are exactly the big-endian bytes of this value. -/
def hashTag (m : GoStr) : Nat := (sha256Regs m).a

/-- Five big-endian base-256 digits of a number below `2^40` (an injective
byte encoding used to build counterexample identifier families). -/
def byte5 (n : Nat) : GoStr :=
  [n / 4294967296 % 256, n / 16777216 % 256, n / 65536 % 256, n / 256 % 256, n % 256]

/-- A family of identifiers sharing their first 192 bytes (192 × `a`, then
4 × `b`), of length 201 — over-long for `sanitizeID` — and pairwise distinct
below `2^40`. -/
def mkId (n : Nat) : GoStr := List.replicate 192 97 ++ [98, 98, 98, 98] ++ byte5 n

/-! ## Helper lemmas -/

theorem alookup_aupsert {α : Type} (m : List (GoStr × α)) (k : GoStr) (v : α) (k' : GoStr) :
    alookup (aupsert m k v) k' = if k = k' then some v else alookup m k' := by
  induction m with
  | nil => simp [alookup, aupsert]
  | cons p rest ih =>
    obtain ⟨pk, pv⟩ := p
    by_cases h1 : pk = k
    · subst h1
      by_cases h2 : pk = k' <;> simp [alookup, aupsert, h2]
    · by_cases h2 : pk = k'
      · subst h2
        have hne : ¬ k = pk := fun hh => h1 hh.symm
        simp [alookup, aupsert, h1, hne, ih]
      · simp [alookup, aupsert, h1, h2, ih]

theorem alookup_aupsert_self {α : Type} (m : List (GoStr × α)) (k : GoStr) (v : α) :
    alookup (aupsert m k v) k = some v := by
  simp [alookup_aupsert]

/-- A key is absent after the per-item write fold exactly when it was absent
before and is none of the written keys. -/
theorem alookup_foldl_aupsert_eq_none {α : Type} (f : GoItem → GoStr) (g : GoItem → α) :
    ∀ (items : List GoItem) (m : List (GoStr × α)) (k : GoStr),
      alookup (items.foldl (fun acc it => aupsert acc (f it) (g it)) m) k = none ↔
      (alookup m k = none ∧ ∀ it ∈ items, k ≠ f it) := by
  intro items
  induction items with
  | nil => simp
  | cons a rest ih =>
    intro m k
    rw [List.foldl_cons, ih]
    rw [alookup_aupsert]
    by_cases h : f a = k
    · simp [h, List.forall_mem_cons]
    · have hne : k ≠ f a := fun hh => h hh.symm
      simp [h, List.forall_mem_cons, hne]

/-! ## Claim C10: scheduler configuration defaults -/

/-- C10: `NewSchedulerService` replaces each zero-valued configuration field
by its default — `UpdateInterval` by 1 hour, `MaxRetries` by 3, `RetryDelay`
by 5 seconds — and keeps every non-zero field unchanged. -/
theorem C10_scheduler_config_defaults (cfg : SchedulerConfig) :
    ((cfg.updateInterval = 0 → (newSchedulerConfig cfg).updateInterval = 3600000000000) ∧
      (cfg.updateInterval ≠ 0 → (newSchedulerConfig cfg).updateInterval = cfg.updateInterval)) ∧
    ((cfg.maxRetries = 0 → (newSchedulerConfig cfg).maxRetries = 3) ∧
      (cfg.maxRetries ≠ 0 → (newSchedulerConfig cfg).maxRetries = cfg.maxRetries)) ∧
    ((cfg.retryDelay = 0 → (newSchedulerConfig cfg).retryDelay = 5000000000) ∧
      (cfg.retryDelay ≠ 0 → (newSchedulerConfig cfg).retryDelay = cfg.retryDelay)) := by
  obtain ⟨u, m, r⟩ := cfg
  unfold newSchedulerConfig
  by_cases h1 : u = 0 <;> by_cases h2 : m = 0 <;> by_cases h3 : r = 0 <;> simp_all

/-- Witness for C10 at concrete configurations. -/
theorem C10_witness :
    (newSchedulerConfig ⟨0, 0, 0⟩).updateInterval = 3600000000000 ∧
    (newSchedulerConfig ⟨0, 0, 0⟩).maxRetries = 3 ∧
    (newSchedulerConfig ⟨0, 0, 0⟩).retryDelay = 5000000000 ∧
    (newSchedulerConfig ⟨60, 7, 9⟩).maxRetries = 7 :=
  ⟨(C10_scheduler_config_defaults ⟨0, 0, 0⟩).1.1 rfl,
   (C10_scheduler_config_defaults ⟨0, 0, 0⟩).2.1.1 rfl,
   (C10_scheduler_config_defaults ⟨0, 0, 0⟩).2.2.1 rfl,
   (C10_scheduler_config_defaults ⟨60, 7, 9⟩).2.1.2 (by decide)⟩

/-! ## Claim C8: starting a job twice -/

/-- C8: for a source not yet registered, `StartJob` succeeds and registers its
job; a second `StartJob` for the same name returns the already-exists error
and leaves the registry — hence the first job's stop channel, last-run time
and error field — unchanged. -/
theorem C8_start_job_twice (st : SchedState) (feed : GoFeed)
    (h : alookup st.jobs feed.name = none) :
    (StartJobModel st feed).1 = none ∧
    alookup (StartJobModel st feed).2.jobs feed.name =
      some ⟨feed.name, feed.rssFeed, st.nextChanId, 0, none⟩ ∧
    (StartJobModel (StartJobModel st feed).2 feed).1 =
      some (.msg (goStr "job already exists for feed: " ++ feed.name)) ∧
    (StartJobModel (StartJobModel st feed).2 feed).2 = (StartJobModel st feed).2 := by
  unfold StartJobModel
  simp [h, alookup_aupsert_self]

/-- Witness for C8: a concrete double start. -/
theorem C8_witness :
    (StartJobModel (StartJobModel ⟨[], 0⟩ ⟨goStr "f", goStr "u"⟩).2 ⟨goStr "f", goStr "u"⟩).1 =
      some (.msg (goStr "job already exists for feed: " ++ goStr "f")) :=
  (C8_start_job_twice ⟨[], 0⟩ ⟨goStr "f", goStr "u"⟩ rfl).2.2.1

/-! ## Claim C9: the persisted item identifier -/

/-- C9: the identifier `StoreFeedItems` derives the storage key from is the
item's GUID, falling back to the link when the GUID is empty and to the title
when the link is also empty; the stored object's key is built from it through
`sanitizeID`. -/
theorem C9_identifier_fallback (st : RssState) (feedName : GoStr) (it : GoItem)
    (h : st.s3conf = true) :
    (StoreFeedItemsModel st feedName [it]).2.s3 =
      aupsert st.s3 (objectKey feedName it) (marshalItem it) ∧
    objectKey feedName it =
      goStr "feeds/" ++ feedName ++ goStr "/items/" ++ sanitizeID (itemID it) ++ goStr ".json" ∧
    (it.guid ≠ [] → itemID it = it.guid) ∧
    (it.guid = [] → it.link ≠ [] → itemID it = it.link) ∧
    (it.guid = [] → it.link = [] → itemID it = it.title) := by
  refine ⟨?_, rfl, ?_, ?_, ?_⟩
  · simp [StoreFeedItemsModel, h]
  · intro hg
    simp [itemID, hg]
  · intro hg hl
    simp [itemID, hg, hl]
  · intro hg hl
    simp [itemID, hg, hl]

/-- Witness for C9: an item with no GUID and no link is identified by its
title. -/
theorem C9_witness :
    itemID ⟨goStr "t", [], [], [], [], []⟩ = goStr "t" :=
  (C9_identifier_fallback ⟨true, [], []⟩ (goStr "f") ⟨goStr "t", [], [], [], [], []⟩
    rfl).2.2.2.2 rfl rfl

/-! ## Claim C4: the persisted storage key layout -/

/-- C4 counterexample: storing the item with GUID `b` for feed `a` writes the
object key `feeds/a/items/b.json`, and no `sources/a/items/b.json` object
exists — the persisted layout does not use a `sources/` key space. -/
theorem C4_counterexample :
    alookup (StoreFeedItemsModel ⟨true, [], []⟩ (goStr "a")
        [⟨goStr "t", [], [], [], goStr "b", []⟩]).2.s3
      (goStr "feeds/a/items/b.json") =
      some (marshalItem ⟨goStr "t", [], [], [], goStr "b", []⟩) ∧
    alookup (StoreFeedItemsModel ⟨true, [], []⟩ (goStr "a")
        [⟨goStr "t", [], [], [], goStr "b", []⟩]).2.s3
      (goStr "sources/a/items/b.json") = none :=
  ⟨rfl, rfl⟩

/-- C4 (amended): with a configured client, `StoreFeedItems` persists every
item as one object whose storage key is exactly
`feeds/<name>/items/<ItemKey>.json` with `<ItemKey> = sanitizeID` of the
item's identifier, and writes no key of any other shape. -/
theorem C4_feeds_items_layout (st : RssState) (feedName : GoStr) (items : List GoItem)
    (h : st.s3conf = true) :
    (StoreFeedItemsModel st feedName items).1 = .ok () ∧
    (∀ it ∈ items,
      alookup (StoreFeedItemsModel st feedName items).2.s3 (objectKey feedName it) ≠ none) ∧
    (∀ k, alookup st.s3 k = none →
      alookup (StoreFeedItemsModel st feedName items).2.s3 k ≠ none →
      ∃ it ∈ items, k = objectKey feedName it) ∧
    (∀ it, objectKey feedName it =
      goStr "feeds/" ++ feedName ++ goStr "/items/" ++ sanitizeID (itemID it) ++ goStr ".json") := by
  refine ⟨?_, ?_, ?_, fun it => rfl⟩
  · simp [StoreFeedItemsModel, h]
  · intro it hit heq
    simp only [StoreFeedItemsModel, h] at heq
    simp only [Bool.true_eq_false, if_false] at heq
    rw [alookup_foldl_aupsert_eq_none] at heq
    exact heq.2 it hit rfl
  · intro k hk hne
    simp only [StoreFeedItemsModel, h] at hne
    simp only [Bool.true_eq_false, if_false] at hne
    by_contra hcon
    push_neg at hcon
    apply hne
    rw [alookup_foldl_aupsert_eq_none]
    exact ⟨hk, fun it hit hkeq => hcon it hit hkeq⟩

/-- Witness for C4 (amended) at a concrete store. -/
theorem C4_witness :
    alookup (StoreFeedItemsModel ⟨true, [], []⟩ (goStr "news")
        [⟨goStr "t", [], [], [], goStr "x", []⟩]).2.s3
      (objectKey (goStr "news") ⟨goStr "t", [], [], [], goStr "x", []⟩) ≠ none :=
  (C4_feeds_items_layout ⟨true, [], []⟩ (goStr "news")
      [⟨goStr "t", [], [], [], goStr "x", []⟩] rfl).2.1
    ⟨goStr "t", [], [], [], goStr "x", []⟩ (List.mem_singleton.mpr rfl)

/-! ## Claim C1: store-then-get round trip -/

/-- C1, evaluated at the failing input (the spec's own `tech-news` example):
storing the three items succeeds and writes exactly three object keys, and
re-running the same store yields the same keys and count — but the
immediately following `GetStoredFeedItems` hits the cache entry the store
wrote (dynamic type `[]*gofeed.Item`), whose type assertion to
`[]map[string]interface{}` panics instead of returning the 3 items. -/
theorem C1_store_then_get_panics :
    (StoreFeedItemsModel ⟨true, [], []⟩ (goStr "tech-news")
        [⟨goStr "t1", [], [], [], goStr "a", []⟩, ⟨goStr "t2", [], [], [], goStr "b", []⟩,
         ⟨goStr "t3", [], [], [], goStr "c", []⟩]).1 = .ok () ∧
    (StoreFeedItemsModel ⟨true, [], []⟩ (goStr "tech-news")
        [⟨goStr "t1", [], [], [], goStr "a", []⟩, ⟨goStr "t2", [], [], [], goStr "b", []⟩,
         ⟨goStr "t3", [], [], [], goStr "c", []⟩]).2.s3.length = 3 ∧
    (GetStoredFeedItemsModel
        (StoreFeedItemsModel ⟨true, [], []⟩ (goStr "tech-news")
          [⟨goStr "t1", [], [], [], goStr "a", []⟩, ⟨goStr "t2", [], [], [], goStr "b", []⟩,
           ⟨goStr "t3", [], [], [], goStr "c", []⟩]).2
        (goStr "tech-news")).1 = Outcome.panicked ∧
    (StoreFeedItemsModel
        (StoreFeedItemsModel ⟨true, [], []⟩ (goStr "tech-news")
          [⟨goStr "t1", [], [], [], goStr "a", []⟩, ⟨goStr "t2", [], [], [], goStr "b", []⟩,
           ⟨goStr "t3", [], [], [], goStr "c", []⟩]).2
        (goStr "tech-news")
        [⟨goStr "t1", [], [], [], goStr "a", []⟩, ⟨goStr "t2", [], [], [], goStr "b", []⟩,
         ⟨goStr "t3", [], [], [], goStr "c", []⟩]).2.s3.map Prod.fst =
      (StoreFeedItemsModel ⟨true, [], []⟩ (goStr "tech-news")
        [⟨goStr "t1", [], [], [], goStr "a", []⟩, ⟨goStr "t2", [], [], [], goStr "b", []⟩,
         ⟨goStr "t3", [], [], [], goStr "c", []⟩]).2.s3.map Prod.fst :=
  ⟨rfl, rfl, rfl, rfl⟩

/-! ## Claim C2: panic behaviour of GetStoredFeedItems -/

theorem processItem_eq_none_iff (m : JMap) :
    processItem m = none ↔ ∀ c, alookup m (goStr "custom") ≠ some (JVal.obj c) := by
  cases h : alookup m (goStr "custom") with
  | none => simp [processItem, h]
  | some v =>
    cases v with
    | str s => simp [processItem, h]
    | obj c =>
      cases h2 : alookup c (goStr "summary") with
      | none => simp [processItem, h, h2]
      | some w => simp [processItem, h, h2]

theorem processAll_eq_none_iff (maps : List JMap) :
    processAll maps = none ↔ ∃ m ∈ maps, processItem m = none := by
  induction maps with
  | nil => simp [processAll]
  | cons m rest ih =>
    cases hm : processItem m with
    | none => simp [processAll, hm]
    | some m' => simp [processAll, hm, ih]

/-- C2 counterexample: `GetStoredFeedItems` does panic — on a cache hit
holding the `[]*gofeed.Item` value a preceding `StoreFeedItems` wrote, and on
a fetched item whose JSON has no `"custom"` field. -/
theorem C2_counterexample :
    (GetStoredFeedItemsModel
        ⟨true,
         [(itemsCacheKey (goStr "f"), CacheVal.feedItems [⟨goStr "t", [], [], [], goStr "a", []⟩])],
         []⟩ (goStr "f")).1 = Outcome.panicked ∧
    (GetStoredFeedItemsModel
        ⟨true, [],
         [(goStr "feeds/f/items/a.json", JVal.obj [(goStr "title", JVal.str (goStr "t"))])]⟩
        (goStr "f")).1 = Outcome.panicked :=
  ⟨rfl, rfl⟩

/-- C2 (amended): `GetStoredFeedItems` panics on exactly the two described
situations — a cache hit whose entry holds a `[]*gofeed.Item` (as written by
`StoreFeedItems`) and a fetched item whose JSON has no `"custom"` object —
and otherwise returns an item list or an error: a map-typed cache hit
returns the cached list, an unmarshal failure returns an error, and a cache
miss in which every fetched item carries a `"custom"` object returns a
list. -/
theorem C2_get_panic_characterization (st : RssState) (feedName : GoStr) :
    (∀ l, alookup st.cache (itemsCacheKey feedName) = some (CacheVal.feedItems l) →
      (GetStoredFeedItemsModel st feedName).1 = Outcome.panicked) ∧
    (∀ ms, alookup st.cache (itemsCacheKey feedName) = some (CacheVal.itemMaps ms) →
      (GetStoredFeedItemsModel st feedName).1 = Outcome.ok ms) ∧
    (alookup st.cache (itemsCacheKey feedName) = none →
      ∀ e, unmarshalAll (fetchedRaws st feedName) = .error e →
        (GetStoredFeedItemsModel st feedName).1 =
          Outcome.err (.wrap (goStr "failed to read some feed items: ") e)) ∧
    (alookup st.cache (itemsCacheKey feedName) = none →
      ∀ maps, unmarshalAll (fetchedRaws st feedName) = .ok maps →
        ((∀ m ∈ maps, ∃ c, alookup m (goStr "custom") = some (JVal.obj c)) →
          ∃ items, (GetStoredFeedItemsModel st feedName).1 = Outcome.ok items) ∧
        ((∃ m ∈ maps, ∀ c, alookup m (goStr "custom") ≠ some (JVal.obj c)) →
          (GetStoredFeedItemsModel st feedName).1 = Outcome.panicked)) := by
  refine ⟨?_, ?_, ?_, ?_⟩
  · intro l hc
    simp [GetStoredFeedItemsModel, hc]
  · intro ms hc
    simp [GetStoredFeedItemsModel, hc]
  · intro hc e hu
    simp [GetStoredFeedItemsModel, hc, hu]
  · intro hc maps hu
    constructor
    · intro hall
      cases hp : processAll maps with
      | none =>
        rw [processAll_eq_none_iff] at hp
        obtain ⟨m, hm, hnone⟩ := hp
        rw [processItem_eq_none_iff] at hnone
        obtain ⟨c, hcu⟩ := hall m hm
        exact absurd hcu (hnone c)
      | some items =>
        exact ⟨items, by simp [GetStoredFeedItemsModel, hc, hu, hp]⟩
    · intro hbad
      have hp : processAll maps = none := by
        rw [processAll_eq_none_iff]
        obtain ⟨m, hm, hnone⟩ := hbad
        exact ⟨m, hm, (processItem_eq_none_iff m).mpr hnone⟩
      simp [GetStoredFeedItemsModel, hc, hu, hp]

/-- Witness for C2 (amended): a concrete map-typed cache hit returns a list,
and a concrete feed-items-typed cache hit panics. -/
theorem C2_witness :
    (GetStoredFeedItemsModel ⟨true, [(itemsCacheKey (goStr "g"), CacheVal.itemMaps [[]])], []⟩
        (goStr "g")).1 = Outcome.ok [[]] ∧
    (GetStoredFeedItemsModel ⟨true, [(itemsCacheKey (goStr "g"), CacheVal.feedItems [])], []⟩
        (goStr "g")).1 = Outcome.panicked :=
  ⟨(C2_get_panic_characterization
      ⟨true, [(itemsCacheKey (goStr "g"), CacheVal.itemMaps [[]])], []⟩ (goStr "g")).2.1 [[]] rfl,
   (C2_get_panic_characterization
      ⟨true, [(itemsCacheKey (goStr "g"), CacheVal.feedItems [])], []⟩ (goStr "g")).1 [] rfl⟩

/-! ## Claim C7: annotation failures are non-fatal -/

/-- C7: in an update cycle whose fetch/parse step yields `items`, summarize
failures do not fail the cycle: with a configured client the cycle succeeds
for every pattern of summarize outcomes; an item whose summarize call fails
is kept unannotated (unchanged) while one whose call succeeds gets the
summary under `Custom["summary"]`; every item is processed (the annotated
list has the same length); and the full item set is persisted. -/
theorem C7_annotation_nonfatal (st : RssState) (feedName feedUrl : GoStr)
    (items : List GoItem) (sumRes : Nat → GoStr → Except GoErr GoStr)
    (hurl : feedUrl ≠ []) (hs3 : st.s3conf = true) :
    (UpdateFeedModel st feedName feedUrl (.ok items) sumRes).1 = .ok () ∧
    (annotateItems sumRes items).length = items.length ∧
    (∀ i it, items[i]? = some it →
      (∀ e, sumRes i (summaryInput it) = .error e →
        (annotateItems sumRes items)[i]? = some it) ∧
      (∀ s, sumRes i (summaryInput it) = .ok s →
        (annotateItems sumRes items)[i]? =
          some { it with custom := aupsert it.custom (goStr "summary") s })) ∧
    (∀ it ∈ annotateItems sumRes items,
      alookup (UpdateFeedModel st feedName feedUrl (.ok items) sumRes).2.s3
        (objectKey feedName it) ≠ none) := by
  refine ⟨?_, ?_, ?_, ?_⟩
  · simp [UpdateFeedModel, StoreFeedItemsModel, hurl, hs3]
  · simp [annotateItems]
  · intro i it hit
    constructor
    · intro e he
      simp [annotateItems, List.getElem?_map, List.getElem?_enum, hit, annotateOne, he]
    · intro s hs
      simp [annotateItems, List.getElem?_map, List.getElem?_enum, hit, annotateOne, hs]
  · intro it hit heq
    simp only [UpdateFeedModel, StoreFeedItemsModel, hurl, hs3] at heq
    simp only [Bool.true_eq_false, if_false, if_neg hurl] at heq
    rw [alookup_foldl_aupsert_eq_none] at heq
    exact heq.2 it hit rfl

/-- Witness for C7: two items, the first summarize call failing and the
second succeeding — the cycle still succeeds, the first item is unchanged,
the second is annotated. -/
theorem C7_witness :
    (UpdateFeedModel ⟨true, [], []⟩ (goStr "f") (goStr "u")
        (.ok [⟨goStr "t1", [], goStr "c1", [], goStr "a", []⟩,
              ⟨goStr "t2", [], goStr "c2", [], goStr "b", []⟩])
        (fun i _ => if i = 0 then .error (.msg (goStr "boom")) else .ok (goStr "s"))).1 =
      .ok () ∧
    (annotateItems
        (fun i _ => if i = 0 then .error (.msg (goStr "boom")) else .ok (goStr "s"))
        [⟨goStr "t1", [], goStr "c1", [], goStr "a", []⟩,
         ⟨goStr "t2", [], goStr "c2", [], goStr "b", []⟩])[0]? =
      some ⟨goStr "t1", [], goStr "c1", [], goStr "a", []⟩ ∧
    (annotateItems
        (fun i _ => if i = 0 then .error (.msg (goStr "boom")) else .ok (goStr "s"))
        [⟨goStr "t1", [], goStr "c1", [], goStr "a", []⟩,
         ⟨goStr "t2", [], goStr "c2", [], goStr "b", []⟩])[1]? =
      some ⟨goStr "t2", [], goStr "c2", [], goStr "b", [(goStr "summary", goStr "s")]⟩ :=
  ⟨(C7_annotation_nonfatal ⟨true, [], []⟩ (goStr "f") (goStr "u")
      [⟨goStr "t1", [], goStr "c1", [], goStr "a", []⟩,
       ⟨goStr "t2", [], goStr "c2", [], goStr "b", []⟩]
      (fun i _ => if i = 0 then .error (.msg (goStr "boom")) else .ok (goStr "s"))
      (by decide) rfl).1,
   ((C7_annotation_nonfatal ⟨true, [], []⟩ (goStr "f") (goStr "u")
      [⟨goStr "t1", [], goStr "c1", [], goStr "a", []⟩,
       ⟨goStr "t2", [], goStr "c2", [], goStr "b", []⟩]
      (fun i _ => if i = 0 then .error (.msg (goStr "boom")) else .ok (goStr "s"))
      (by decide) rfl).2.2.1 0 ⟨goStr "t1", [], goStr "c1", [], goStr "a", []⟩ rfl).1
     (.msg (goStr "boom")) rfl,
   ((C7_annotation_nonfatal ⟨true, [], []⟩ (goStr "f") (goStr "u")
      [⟨goStr "t1", [], goStr "c1", [], goStr "a", []⟩,
       ⟨goStr "t2", [], goStr "c2", [], goStr "b", []⟩]
      (fun i _ => if i = 0 then .error (.msg (goStr "boom")) else .ok (goStr "s"))
      (by decide) rfl).2.2.1 1 ⟨goStr "t2", [], goStr "c2", [], goStr "b", []⟩ rfl).2
     (goStr "s") rfl⟩

/-! ## Claim C6: the retry helper -/

theorem retryAux_attempts_le (operation : GoStr) (maxR : Nat) (fnRes : Nat → Option GoErr)
    (canc : Nat → Bool) :
    ∀ (fuel i : Nat) (le : Option GoErr),
      (retryAux operation maxR fnRes canc i fuel le).attempts ≤ i + fuel := by
  intro fuel
  induction fuel with
  | zero =>
    intro i le
    simp [retryAux]
  | succ f ih =>
    intro i le
    simp only [retryAux]
    by_cases hc : 0 < i ∧ canc i = true
    · simp only [if_pos hc]
      omega
    · simp only [if_neg hc]
      cases hf : fnRes i with
      | some e =>
        have := ih (i + 1) (some e)
        simp only []
        omega
      | none =>
        simp only []
        omega

theorem retryAux_all_fail (operation : GoStr) (maxR : Nat) (fnRes : Nat → Option GoErr)
    (canc : Nat → Bool) :
    ∀ (fuel i : Nat) (le : Option GoErr), 0 < fuel →
      (∀ k, i ≤ k → k < i + fuel → fnRes k ≠ none) →
      (∀ k, canc k = false) →
      ∃ e, fnRes (i + fuel - 1) = some e ∧
        retryAux operation maxR fnRes canc i fuel le =
          ⟨.error (.wrap (retryFailMsg operation maxR) e), i + fuel⟩ := by
  intro fuel
  induction fuel with
  | zero =>
    intro i le h
    omega
  | succ f ih =>
    intro i le _ hfail hcanc
    have hcc : ¬ (0 < i ∧ canc i = true) := by simp [hcanc]
    cases hf : fnRes i with
    | none => exact absurd hf (hfail i le_rfl (by omega))
    | some e =>
      by_cases hz : f = 0
      · subst hz
        refine ⟨e, by simpa using hf, ?_⟩
        simp [retryAux, hcc, hf, Option.getD]
      · have hf0 : 0 < f := Nat.pos_of_ne_zero hz
        obtain ⟨e', he', heq⟩ :=
          ih (i + 1) (some e) hf0 (fun k hk1 hk2 => hfail k (by omega) (by omega)) hcanc
        have harg : i + 1 + f - 1 = i + (f + 1) - 1 := by omega
        refine ⟨e', by rw [← harg]; exact he', ?_⟩
        simp only [retryAux, if_neg hcc, hf]
        rw [heq]
        have : i + 1 + f = i + (f + 1) := by omega
        rw [this]

theorem retryAux_success (operation : GoStr) (maxR : Nat) (fnRes : Nat → Option GoErr)
    (canc : Nat → Bool) :
    ∀ (fuel i j : Nat) (le : Option GoErr),
      i ≤ j → j < i + fuel →
      (∀ k, i ≤ k → k < j → fnRes k ≠ none) →
      fnRes j = none →
      (∀ k, i ≤ k → k ≤ j → canc k = false) →
      retryAux operation maxR fnRes canc i fuel le = ⟨.ok (), j + 1⟩ := by
  intro fuel
  induction fuel with
  | zero =>
    intro i j le h1 h2
    omega
  | succ f ih =>
    intro i j le hij hlt hfail hok hcanc
    have hcc : ¬ (0 < i ∧ canc i = true) := by
      intro hcon
      have := hcanc i le_rfl hij
      rw [this] at hcon
      exact absurd hcon.2 (by simp)
    rcases Nat.eq_or_lt_of_le hij with heq | hlt2
    · subst heq
      simp [retryAux, hcc, hok]
    · cases hf : fnRes i with
      | none => exact absurd hf (hfail i le_rfl hlt2)
      | some e =>
        simp only [retryAux, if_neg hcc, hf]
        exact ih (i + 1) j (some e) (by omega) (by omega)
          (fun k hk1 hk2 => hfail k (by omega) hk2) hok
          (fun k hk1 hk2 => hcanc k (by omega) hk2)

theorem retryAux_canceled (operation : GoStr) (maxR : Nat) (fnRes : Nat → Option GoErr)
    (canc : Nat → Bool) :
    ∀ (fuel i j : Nat) (le : Option GoErr),
      i ≤ j → 0 < j → j < i + fuel →
      (∀ k, i ≤ k → k < j → fnRes k ≠ none) →
      (∀ k, i ≤ k → k < j → canc k = false) →
      canc j = true →
      retryAux operation maxR fnRes canc i fuel le = ⟨.error .ctxCanceled, j⟩ := by
  intro fuel
  induction fuel with
  | zero =>
    intro i j le h1 h2 h3
    omega
  | succ f ih =>
    intro i j le hij hj hlt hfail hcanc hcj
    rcases Nat.eq_or_lt_of_le hij with heq | hlt2
    · subst heq
      have hcc : 0 < i ∧ canc i = true := ⟨hj, hcj⟩
      simp [retryAux, hcc]
    · have hcc : ¬ (0 < i ∧ canc i = true) := by
        intro hcon
        have := hcanc i le_rfl hlt2
        rw [this] at hcon
        exact absurd hcon.2 (by simp)
      cases hf : fnRes i with
      | none => exact absurd hf (hfail i le_rfl hlt2)
      | some e =>
        simp only [retryAux, if_neg hcc, hf]
        exact ih (i + 1) j (some e) (by omega) hj (by omega)
          (fun k hk1 hk2 => hfail k (by omega) hk2)
          (fun k hk1 hk2 => hcanc k (by omega) hk2) hcj

/-- C6: `retryWithBackoff` attempts the operation at most `MaxRetries + 1`
times; if every attempt fails and the cancellation signal never fires, all
`MaxRetries + 1` attempts are made and the returned error wraps the last
underlying failure together with the retry count; if attempt `j` is the
first to succeed (no cancellation up to it), the helper returns success
after exactly `j + 1` attempts; if the cancellation signal fires during the
wait before attempt `j`, the helper returns the cancellation error
immediately, with only `j` attempts made. -/
theorem C6_retry_with_backoff (operation : GoStr) (maxR : Nat)
    (fnRes : Nat → Option GoErr) (canc : Nat → Bool) :
    (retryWithBackoff operation maxR fnRes canc).attempts ≤ maxR + 1 ∧
    ((∀ i, i ≤ maxR → fnRes i ≠ none) → (∀ i, canc i = false) →
      ∃ e, fnRes maxR = some e ∧
        (retryWithBackoff operation maxR fnRes canc).result =
          .error (.wrap (retryFailMsg operation maxR) e) ∧
        (retryWithBackoff operation maxR fnRes canc).attempts = maxR + 1) ∧
    (∀ j, j ≤ maxR → (∀ k, k < j → fnRes k ≠ none) → fnRes j = none →
      (∀ k, k ≤ j → canc k = false) →
      (retryWithBackoff operation maxR fnRes canc).result = .ok () ∧
      (retryWithBackoff operation maxR fnRes canc).attempts = j + 1) ∧
    (∀ j, 0 < j → j ≤ maxR → (∀ k, k < j → fnRes k ≠ none) →
      (∀ k, k < j → canc k = false) → canc j = true →
      (retryWithBackoff operation maxR fnRes canc).result = .error .ctxCanceled ∧
      (retryWithBackoff operation maxR fnRes canc).attempts = j) := by
  refine ⟨?_, ?_, ?_, ?_⟩
  · have := retryAux_attempts_le operation maxR fnRes canc (maxR + 1) 0 none
    simpa [retryWithBackoff] using this
  · intro hfail hcanc
    obtain ⟨e, he, heq⟩ :=
      retryAux_all_fail operation maxR fnRes canc (maxR + 1) 0 none (by omega)
        (fun k _ hk2 => hfail k (by omega)) hcanc
    refine ⟨e, by simpa using he, ?_, ?_⟩
    · rw [retryWithBackoff, heq]
    · rw [retryWithBackoff, heq]
      simp
  · intro j hj hfail hok hcanc
    have heq := retryAux_success operation maxR fnRes canc (maxR + 1) 0 j none
      (by omega) (by omega) (fun k _ hk2 => hfail k hk2) hok (fun k _ hk2 => hcanc k hk2)
    constructor
    · rw [retryWithBackoff, heq]
    · rw [retryWithBackoff, heq]
  · intro j hj0 hj hfail hcanc hcj
    have heq := retryAux_canceled operation maxR fnRes canc (maxR + 1) 0 j none
      (by omega) hj0 (by omega) (fun k _ hk2 => hfail k hk2) (fun k _ hk2 => hcanc k hk2) hcj
    constructor
    · rw [retryWithBackoff, heq]
    · rw [retryWithBackoff, heq]

/-- Witness for C6: with `MaxRetries = 2`, an always-failing operation is
attempted 3 times and the final error wraps the last failure with the retry
count; an operation succeeding on its second attempt stops after 2 attempts;
a cancellation before attempt 1 stops after 1 attempt. -/
theorem C6_witness :
    (∃ e, (fun _ => some (GoErr.msg (goStr "x"))) 2 = some e ∧
      (retryWithBackoff (goStr "op") 2 (fun _ => some (GoErr.msg (goStr "x")))
          (fun _ => false)).result =
        .error (.wrap (retryFailMsg (goStr "op") 2) e) ∧
      (retryWithBackoff (goStr "op") 2 (fun _ => some (GoErr.msg (goStr "x")))
          (fun _ => false)).attempts = 3) ∧
    ((retryWithBackoff (goStr "op") 2
        (fun i => if i = 0 then some (GoErr.msg (goStr "x")) else none)
        (fun _ => false)).result = .ok () ∧
      (retryWithBackoff (goStr "op") 2
        (fun i => if i = 0 then some (GoErr.msg (goStr "x")) else none)
        (fun _ => false)).attempts = 2) ∧
    ((retryWithBackoff (goStr "op") 2 (fun _ => some (GoErr.msg (goStr "x")))
        (fun i => decide (i = 1))).result = .error .ctxCanceled ∧
      (retryWithBackoff (goStr "op") 2 (fun _ => some (GoErr.msg (goStr "x")))
        (fun i => decide (i = 1))).attempts = 1) :=
  ⟨(C6_retry_with_backoff (goStr "op") 2 (fun _ => some (GoErr.msg (goStr "x")))
      (fun _ => false)).2.1 (fun i _ => by simp) (fun i => rfl),
   (C6_retry_with_backoff (goStr "op") 2
      (fun i => if i = 0 then some (GoErr.msg (goStr "x")) else none)
      (fun _ => false)).2.2.1 1 (by omega)
      (fun k hk => by interval_cases k <;> simp) (by simp) (fun k _ => rfl),
   (C6_retry_with_backoff (goStr "op") 2 (fun _ => some (GoErr.msg (goStr "x")))
      (fun i => decide (i = 1))).2.2.2 1 (by omega) (by omega)
      (fun k hk => by simp) (fun k hk => by interval_cases k <;> simp) (by simp)⟩

/-! ## Claim C3: the scheduler's per-cycle retry count -/

theorem schedUpdateAux_parse_fail (maxR : Nat) (parseRes : Nat → Except GoErr (List GoItem))
    (storeRes : Nat → Except GoErr Unit) (now : Nat) (errOf : Nat → GoErr)
    (hfail : ∀ i, parseRes i = .error (errOf i)) :
    ∀ (fuel i : Nat) (le : Option GoErr) (job : SchedJob), 0 < fuel →
      schedUpdateAux maxR parseRes storeRes now i fuel le job =
        (.error (.wrap (schedFailMsg maxR)
          (.wrap (goStr "failed to parse feed: ") (errOf (i + fuel - 1)))), job, i + fuel) := by
  intro fuel
  induction fuel with
  | zero =>
    intro i le job h
    omega
  | succ f ih =>
    intro i le job _
    by_cases hz : f = 0
    · subst hz
      simp [schedUpdateAux, hfail i, Option.getD]
    · have hf0 : 0 < f := Nat.pos_of_ne_zero hz
      have heq := ih (i + 1)
        (some (.wrap (goStr "failed to parse feed: ") (errOf i))) job hf0
      simp only [schedUpdateAux, hfail i]
      rw [heq]
      have h1 : i + 1 + f - 1 = i + (f + 1) - 1 := by omega
      have h2 : i + 1 + f = i + (f + 1) := by omega
      rw [h1, h2]

/-- C3 counterexample: with `MaxRetries = 3` and a fetch/parse step that
fails on every attempt, one update cycle makes exactly 3 attempts — not
`MaxRetries + 1 = 4` as claimed. -/
theorem C3_counterexample :
    (schedUpdateFeed 3 (fun _ => .error (.msg (goStr "down"))) (fun _ => .ok ()) 100
        ⟨goStr "f", goStr "u", 0, 0, none⟩).2.2 = 3 ∧
    (schedUpdateFeed 3 (fun _ => .error (.msg (goStr "down"))) (fun _ => .ok ()) 100
        ⟨goStr "f", goStr "u", 0, 0, none⟩).2.2 ≠ 3 + 1 := by
  constructor
  · rfl
  · intro h
    rw [show (schedUpdateFeed 3 (fun _ => .error (.msg (goStr "down"))) (fun _ => .ok ()) 100
        ⟨goStr "f", goStr "u", 0, 0, none⟩).2.2 = 3 from rfl] at h
    omega

/-- C3 (amended): with `MaxRetries ≥ 1` and a fetch/parse step failing on
every attempt, one update cycle makes exactly `MaxRetries` attempts (the
loop is `for i := 0; i < MaxRetries; i++`), returns the retry-exhausted
error `failed after <MaxRetries> retries:` wrapping the last underlying
parse failure, the loop records it on the job's error field, and the job's
last-run timestamp does not advance. -/
theorem C3_update_cycle_attempts (maxR : Nat) (parseRes : Nat → Except GoErr (List GoItem))
    (errOf : Nat → GoErr) (storeRes : Nat → Except GoErr Unit) (now : Nat) (job : SchedJob)
    (hmr : 1 ≤ maxR) (hfail : ∀ i, parseRes i = .error (errOf i)) :
    (schedUpdateFeed maxR parseRes storeRes now job).2.2 = maxR ∧
    (schedUpdateFeed maxR parseRes storeRes now job).1 =
      .error (.wrap (schedFailMsg maxR)
        (.wrap (goStr "failed to parse feed: ") (errOf (maxR - 1)))) ∧
    (schedUpdateFeed maxR parseRes storeRes now job).2.1 = job ∧
    (runCycleOnce maxR parseRes storeRes now job).1 =
      { job with jobErr := some (.wrap (schedFailMsg maxR)
          (.wrap (goStr "failed to parse feed: ") (errOf (maxR - 1)))) } ∧
    (runCycleOnce maxR parseRes storeRes now job).1.lastRun = job.lastRun := by
  have heq := schedUpdateAux_parse_fail maxR parseRes storeRes now errOf hfail maxR 0 none job
    (by omega)
  have h0 : 0 + maxR - 1 = maxR - 1 := by omega
  have h1 : (0 : Nat) + maxR = maxR := by omega
  rw [h0, h1] at heq
  have hu : schedUpdateFeed maxR parseRes storeRes now job =
      (.error (.wrap (schedFailMsg maxR)
        (.wrap (goStr "failed to parse feed: ") (errOf (maxR - 1)))), job, maxR) := heq
  refine ⟨by rw [hu], by rw [hu], by rw [hu], ?_, ?_⟩
  · rw [runCycleOnce, hu]
  · rw [runCycleOnce, hu]

/-- Witness for C3 (amended) at `MaxRetries = 3`. -/
theorem C3_witness :
    (schedUpdateFeed 3 (fun _ => .error (.msg (goStr "down"))) (fun _ => .ok ()) 100
        ⟨goStr "f", goStr "u", 0, 7, none⟩).2.2 = 3 ∧
    (runCycleOnce 3 (fun _ => .error (.msg (goStr "down"))) (fun _ => .ok ()) 100
        ⟨goStr "f", goStr "u", 0, 7, none⟩).1.lastRun = 7 :=
  ⟨(C3_update_cycle_attempts 3 (fun _ => .error (.msg (goStr "down")))
      (fun _ => .msg (goStr "down")) (fun _ => .ok ()) 100
      ⟨goStr "f", goStr "u", 0, 7, none⟩ (by omega) (fun i => rfl)).1,
   (C3_update_cycle_attempts 3 (fun _ => .error (.msg (goStr "down")))
      (fun _ => .msg (goStr "down")) (fun _ => .ok ()) 100
      ⟨goStr "f", goStr "u", 0, 7, none⟩ (by omega) (fun i => rfl)).2.2.2.2⟩

/-! ## Claim C5: the sanitized bounded-length key -/

theorem take_len_append {α : Type} (l r : List α) (n : Nat) (h : l.length = n) :
    (l ++ r).take n = l := by
  subst h
  simp

theorem hexOfBytes_append (l r : List Nat) :
    hexOfBytes (l ++ r) = hexOfBytes l ++ hexOfBytes r := by
  induction l with
  | nil => simp [hexOfBytes]
  | cons b rest ih => simp [hexOfBytes, ih]

theorem sha256hex_take8 (m : GoStr) :
    (sha256hex m).take 8 = hexOfBytes (wordBytes (hashTag m)) := rfl

theorem sha256hex_length (m : GoStr) : (sha256hex m).length = 64 := rfl

theorem compress_a_lt (st : Regs) (b : List Nat) : (compress st b).a < 4294967296 := by
  simp only [compress, add32, M32]
  omega

theorem foldl_compress_a_lt (bs : List (List Nat)) (st : Regs) (h : st.a < 4294967296) :
    (bs.foldl compress st).a < 4294967296 := by
  induction bs generalizing st with
  | nil => simpa using h
  | cons b rest ih =>
    rw [List.foldl_cons]
    exact ih (compress st b) (compress_a_lt st b)

theorem hashTag_lt (m : GoStr) : hashTag m < 4294967296 :=
  foldl_compress_a_lt _ sha256H0 (by norm_num [sha256H0])

theorem sanitizeID_overlong (id : GoStr) (h : 200 < (replacerReplace id).length) :
    sanitizeID id = (replacerReplace id).take 192 ++ [95] ++ (sha256hex id).take 8 := by
  unfold sanitizeID
  rw [if_pos h]

theorem byte5_inj (n m : Nat) (hn : n < 1099511627776) (hm : m < 1099511627776)
    (h : byte5 n = byte5 m) : n = m := by
  simp only [byte5, List.cons.injEq, and_true] at h
  omega

theorem replacerReplace_mkId_take (n : Nat) :
    (replacerReplace (mkId n)).take 192 = List.replicate 192 97 := by
  rw [mkId, replacerReplace, List.map_append, List.map_append, List.map_replicate]
  have h97 : replaceByte 97 = 97 := by decide
  rw [h97, List.append_assoc]
  exact take_len_append _ _ 192 (by rw [List.length_replicate])

theorem mkId_overlong (n : Nat) : 200 < (replacerReplace (mkId n)).length := by
  rw [replacerReplace, List.length_map, mkId]
  rw [List.length_append, List.length_append, List.length_replicate]
  simp [byte5]

/-- C5 counterexample: the hash suffix of an over-long key is 8 hex
characters, determined by the first 32 bits of the identifier's digest, so it
takes at most `2^32` values; by pigeonhole, among any `2^32 + 1` over-long
identifiers sharing their first 192 bytes two DIFFERENT ones map to the SAME
key — refuting the unconditional distinct-keys claim. -/
theorem C5_counterexample :
    ∃ id1 id2 : GoStr, id1 ≠ id2 ∧
      200 < (replacerReplace id1).length ∧ 200 < (replacerReplace id2).length ∧
      id1.take 192 = id2.take 192 ∧
      (replacerReplace id1).take 192 = (replacerReplace id2).take 192 ∧
      sanitizeID id1 = sanitizeID id2 := by
  obtain ⟨n, m, hne, hfeq⟩ := Fintype.exists_ne_map_eq_of_card_lt
    (fun k : Fin 4294967297 => (⟨hashTag (mkId k.val), hashTag_lt _⟩ : Fin 4294967296))
    (by simp only [Fintype.card_fin]; omega)
  have htag : hashTag (mkId n.val) = hashTag (mkId m.val) := by
    injection hfeq
  refine ⟨mkId n.val, mkId m.val, ?_, mkId_overlong _, mkId_overlong _, ?_, ?_, ?_⟩
  · intro hcon
    apply hne
    rw [mkId, mkId] at hcon
    have h2 := List.append_cancel_left hcon
    have hv := byte5_inj n.val m.val (by have := n.isLt; omega) (by have := m.isLt; omega) h2
    exact Fin.ext hv
  · rw [mkId, mkId, List.append_assoc, List.append_assoc]
    rw [take_len_append _ _ 192 (by rw [List.length_replicate]),
      take_len_append _ _ 192 (by rw [List.length_replicate])]
  · rw [replacerReplace_mkId_take, replacerReplace_mkId_take]
  · rw [sanitizeID_overlong _ (mkId_overlong n.val), sanitizeID_overlong _ (mkId_overlong m.val)]
    rw [replacerReplace_mkId_take, replacerReplace_mkId_take]
    rw [sha256hex_take8, sha256hex_take8, htag]

/-- C5 (amended): `sanitizeID` is a deterministic function that replaces each
path-unsafe byte by `_` and keeps every other byte; an identifier whose
sanitized form exceeds 200 bytes yields the sanitized form truncated to 192
bytes, a `_`, and the first 8 hex characters of the identifier's SHA-256
digest — a bounded key of exactly 201 bytes; and two over-long identifiers
sharing a 192-byte sanitized prefix map to different keys precisely when
their 8-character hash fragments differ. -/
theorem C5_sanitize_bounded_key (id1 id2 : GoStr)
    (h1 : 200 < (replacerReplace id1).length)
    (h2 : 200 < (replacerReplace id2).length)
    (hpre : (replacerReplace id1).take 192 = (replacerReplace id2).take 192) :
    sanitizeID id1 = (replacerReplace id1).take 192 ++ [95] ++ (sha256hex id1).take 8 ∧
    (sanitizeID id1).length = 201 ∧
    (∀ id, replacerReplace id = id.map replaceByte) ∧
    (∀ b, (b = 47 ∨ b = 92 ∨ b = 58 ∨ b = 42 ∨ b = 63 ∨ b = 34 ∨
      b = 60 ∨ b = 62 ∨ b = 124 ∨ b = 32) → replaceByte b = 95) ∧
    (∀ b, ¬ (b = 47 ∨ b = 92 ∨ b = 58 ∨ b = 42 ∨ b = 63 ∨ b = 34 ∨
      b = 60 ∨ b = 62 ∨ b = 124 ∨ b = 32) → replaceByte b = b) ∧
    (sanitizeID id1 = sanitizeID id2 ↔ (sha256hex id1).take 8 = (sha256hex id2).take 8) := by
  refine ⟨sanitizeID_overlong id1 h1, ?_, fun id => rfl, ?_, ?_, ?_⟩
  · rw [sanitizeID_overlong id1 h1]
    have hs : (sha256hex id1).length = 64 := sha256hex_length id1
    simp [List.length_take, hs]
    omega
  · intro b hb
    rw [replaceByte]
    exact if_pos hb
  · intro b hb
    rw [replaceByte]
    exact if_neg hb
  · rw [sanitizeID_overlong id1 h1, sanitizeID_overlong id2 h2, hpre]
    constructor
    · intro h
      exact List.append_cancel_left h
    · intro h
      rw [h]

set_option maxRecDepth 1000000 in
/-- Witness for C5 (amended): two concrete 201/202-byte identifiers sharing a
192-byte prefix; their hash fragments differ, so their keys differ. -/
theorem C5_witness :
    sanitizeID (List.replicate 202 97) =
      (replacerReplace (List.replicate 202 97)).take 192 ++ [95] ++
        (sha256hex (List.replicate 202 97)).take 8 ∧
    (sanitizeID (List.replicate 202 97)).length = 201 ∧
    (sha256hex (List.replicate 202 97)).take 8 ≠
      (sha256hex (List.replicate 201 97 ++ [98])).take 8 ∧
    sanitizeID (List.replicate 202 97) ≠ sanitizeID (List.replicate 201 97 ++ [98]) := by
  have hx := C5_sanitize_bounded_key (List.replicate 202 97) (List.replicate 201 97 ++ [98])
    (by decide) (by decide) (by decide)
  have hdiff : (sha256hex (List.replicate 202 97)).take 8 ≠
      (sha256hex (List.replicate 201 97 ++ [98])).take 8 := by decide
  refine ⟨hx.1, hx.2.1, hdiff, ?_⟩
  intro hcon
  exact hdiff (hx.2.2.2.2.2.mp hcon)

end Unifeed
